import Mathlib

/-!
Verification of the Omega3D vortex-method core against its specification.

The definitions below are shallow embeddings of the C++ sources:
Kernels.h (velocity influence kernels), Surfaces.h (triangular panel
collections), RHS.h (right-hand-side assembly) and Simulation.cpp
(stepper state machine and particle ingestion).  Machine floating-point
scalars are modelled as real numbers; sizes and indices as naturals.
-/

namespace Omega3D

/-- A 3-component vector (one x, y, z triple), modelling the per-axis
scalar values that the C++ code keeps in separate arrays. -/
abbrev Vec3 := ℝ × ℝ × ℝ

/-- Dot product of two 3-vectors (MathHelper dot_product). -/
def dot_product (a b : Vec3) : ℝ :=
  a.1 * b.1 + a.2.1 * b.2.1 + a.2.2 * b.2.2

/-- Cross product of two 3-vectors (MathHelper cross_product). -/
def cross_product (a b : Vec3) : Vec3 :=
  (a.2.1 * b.2.2 - a.2.2 * b.2.1,
   a.2.2 * b.1 - a.1 * b.2.2,
   a.1 * b.2.1 - a.2.1 * b.1)

/-- Squared Euclidean norm of a 3-vector. -/
def normSq (a : Vec3) : ℝ := dot_product a a

/-- Kernels.h kernel_0v_0b: influence of a thick-cored vortex particle at
position s with core radius sr and strength ss on a thick-cored target
point at t with core radius tr; accumulates into the running velocity
tvel.  Mirrors the scalar code: r2 = dx*dx+dy*dy+dz*dz+sr*sr+tr*tr, then
the factor 1/(r2*sqrt(r2)) times the componentwise cross terms. -/
noncomputable def kernel_0v_0b (s : Vec3) (sr : ℝ) (ss : Vec3)
    (t : Vec3) (tr : ℝ) (tvel : Vec3) : Vec3 :=
  let dx := t.1 - s.1
  let dy := t.2.1 - s.2.1
  let dz := t.2.2 - s.2.2
  let r2 := dx * dx + dy * dy + dz * dz + sr * sr + tr * tr
  let r2i := 1 / (r2 * Real.sqrt r2)
  let dxxw := dz * ss.2.1 - dy * ss.2.2
  let dyxw := dx * ss.2.2 - dz * ss.1
  let dzxw := dy * ss.1 - dx * ss.2.1
  (tvel.1 + r2i * dxxw, tvel.2.1 + r2i * dyxw, tvel.2.2 + r2i * dzxw)

/-- Kernels.h kernel_0v_0p: influence of a thick-cored vortex particle on
a singular target point (no target core term in r2). -/
noncomputable def kernel_0v_0p (s : Vec3) (sr : ℝ) (ss : Vec3)
    (t : Vec3) (tvel : Vec3) : Vec3 :=
  let dx := t.1 - s.1
  let dy := t.2.1 - s.2.1
  let dz := t.2.2 - s.2.2
  let r2 := dx * dx + dy * dy + dz * dz + sr * sr
  let r2i := 1 / (r2 * Real.sqrt r2)
  let dxxw := dz * ss.2.1 - dy * ss.2.2
  let dyxw := dx * ss.2.2 - dz * ss.1
  let dzxw := dy * ss.1 - dx * ss.2.1
  (tvel.1 + r2i * dxxw, tvel.2.1 + r2i * dyxw, tvel.2.2 + r2i * dzxw)

/-- The vector that the specification sentence behind claim C1 says one
blob-target kernel invocation adds: (x_t - x_s) x s / r^3 with
r^2 = |x_t - x_s|^2 + core_source^2 + core_target^2.  This definition
follows the spec words, to be compared with kernel_0v_0b. -/
noncomputable def claimed_blob_add (s : Vec3) (sr : ℝ) (ss : Vec3)
    (t : Vec3) (tr : ℝ) : Vec3 :=
  ((Real.sqrt (normSq (t - s) + sr ^ 2 + tr ^ 2)) ^ 3)⁻¹ •
    cross_product (t - s) ss

/-- Auxiliary algebraic fact: for a nonnegative radicand the code factor
1/(r2*sqrt(r2)) equals the inverse cube of sqrt(r2). -/
theorem inv_r2_sqrt_eq (a : ℝ) (h : 0 ≤ a) :
    1 / (a * Real.sqrt a) = ((Real.sqrt a) ^ 3)⁻¹ := by
  rw [one_div, pow_succ, Real.sq_sqrt h]

/-- Squared norms are nonnegative. -/
theorem normSq_nonneg (v : Vec3) : 0 ≤ normSq v := by
  simp only [normSq, dot_product]
  ring_nf
  positivity

/-- Claim C1 (counterexample): with source at the origin, target at
(1,0,0), strength (0,1,0) and zero cores, the blob kernel does not add
the claimed vector (x_t - x_s) x s / r^3: the code adds its negation. -/
theorem kernel_0v_0b_claim_sign_cex :
    kernel_0v_0b (0, 0, 0) 0 (0, 1, 0) (1, 0, 0) 0 (0, 0, 0) ≠
      (0, 0, 0) + claimed_blob_add (0, 0, 0) 0 (0, 1, 0) (1, 0, 0) 0 := by
  intro h
  have hz := congrArg (fun v : Vec3 => v.2.2) h
  simp only [kernel_0v_0b, claimed_blob_add, cross_product, normSq,
    dot_product, Prod.mk_sub_mk, Prod.smul_mk, Prod.mk_add_mk] at hz
  norm_num [Real.sqrt_one] at hz

/-- Claim C1 (amended): one invocation of the thick-cored point-to-point
vortex kernel adds exactly s x (x_t - x_s) / r^3 -- the reverse cross
order of the claim -- with r^2 = |x_t - x_s|^2 + core_source^2 +
core_target^2 for the blob-target variant, and the variant targeting a
singular point uses r^2 = |x_t - x_s|^2 + core_source^2 (zero
target-core contribution). -/
theorem kernel_0v_core_radius_formula (s : Vec3) (sr : ℝ) (ss : Vec3)
    (t : Vec3) (tr : ℝ) (tvel : Vec3) :
    kernel_0v_0b s sr ss t tr tvel =
      tvel + ((Real.sqrt (normSq (t - s) + sr ^ 2 + tr ^ 2)) ^ 3)⁻¹ •
        cross_product ss (t - s) ∧
    kernel_0v_0p s sr ss t tvel =
      tvel + ((Real.sqrt (normSq (t - s) + sr ^ 2)) ^ 3)⁻¹ •
        cross_product ss (t - s) := by
  obtain ⟨sx, sy, sz⟩ := s
  obtain ⟨ssx, ssy, ssz⟩ := ss
  obtain ⟨tx, ty, tz⟩ := t
  obtain ⟨tux, tuy, tuz⟩ := tvel
  constructor
  · have h2 : (0:ℝ) ≤ normSq ((tx, ty, tz) - (sx, sy, sz)) + sr ^ 2 + tr ^ 2 :=
      add_nonneg (add_nonneg (normSq_nonneg _) (sq_nonneg _)) (sq_nonneg _)
    have hr : normSq ((tx, ty, tz) - (sx, sy, sz)) + sr ^ 2 + tr ^ 2 =
        (tx - sx) * (tx - sx) + (ty - sy) * (ty - sy) +
          (tz - sz) * (tz - sz) + sr * sr + tr * tr := by
      simp only [normSq, dot_product, Prod.mk_sub_mk]
      ring
    simp only [kernel_0v_0b, cross_product, Prod.mk_sub_mk,
      Prod.smul_mk, Prod.mk_add_mk, smul_eq_mul]
    rw [← hr, inv_r2_sqrt_eq _ h2]
    simp only [Prod.mk_sub_mk, Prod.mk.injEq]
    refine ⟨by ring, by ring, by ring⟩
  · have h2 : (0:ℝ) ≤ normSq ((tx, ty, tz) - (sx, sy, sz)) + sr ^ 2 :=
      add_nonneg (normSq_nonneg _) (sq_nonneg _)
    have hr : normSq ((tx, ty, tz) - (sx, sy, sz)) + sr ^ 2 =
        (tx - sx) * (tx - sx) + (ty - sy) * (ty - sy) +
          (tz - sz) * (tz - sz) + sr * sr := by
      simp only [normSq, dot_product, Prod.mk_sub_mk]
      ring
    simp only [kernel_0v_0p, cross_product, Prod.mk_sub_mk,
      Prod.smul_mk, Prod.mk_add_mk, smul_eq_mul]
    rw [← hr, inv_r2_sqrt_eq _ h2]
    simp only [Prod.mk_sub_mk, Prod.mk.injEq]
    refine ⟨by ring, by ring, by ring⟩

/-- Kernels.h kernel_2_0p: influence of a 3d constant-strength vortex
panel with vertices v0, v1, v2 and strength ss on a singular target
point.  Mirrors the source: the strength is scaled by 1/4 and the point
kernel is invoked sequentially at the centroid and at the three
vertex-weighted points, each with zero source core. -/
noncomputable def kernel_2_0p (v0 v1 v2 ss t tvel : Vec3) : Vec3 :=
  let str : Vec3 := (0.25 : ℝ) • ss
  let a1 := kernel_0v_0p ((1 / 3 : ℝ) • (v0 + v1 + v2)) 0 str t tvel
  let a2 := kernel_0v_0p ((1 / 6 : ℝ) • ((4 : ℝ) • v0 + v1 + v2)) 0 str t a1
  let a3 := kernel_0v_0p ((1 / 6 : ℝ) • (v0 + (4 : ℝ) • v1 + v2)) 0 str t a2
  kernel_0v_0p ((1 / 6 : ℝ) • (v0 + v1 + (4 : ℝ) • v2)) 0 str t a3

/-- Claim C5: the panel-to-point vortex influence equals the sum of four
point-kernel evaluations with zero source core, each carrying strength
s/4, located at the centroid (v0+v1+v2)/3 and at the three points
(4*vi+vj+vk)/6 for each vertex i. -/
theorem kernel_2_0p_four_point_quadrature (v0 v1 v2 ss t tvel : Vec3) :
    kernel_2_0p v0 v1 v2 ss t tvel =
      tvel
      + kernel_0v_0p ((1 / 3 : ℝ) • (v0 + v1 + v2)) 0 ((1 / 4 : ℝ) • ss) t
          (0, 0, 0)
      + kernel_0v_0p ((1 / 6 : ℝ) • ((4 : ℝ) • v0 + v1 + v2)) 0
          ((1 / 4 : ℝ) • ss) t (0, 0, 0)
      + kernel_0v_0p ((1 / 6 : ℝ) • (v0 + (4 : ℝ) • v1 + v2)) 0
          ((1 / 4 : ℝ) • ss) t (0, 0, 0)
      + kernel_0v_0p ((1 / 6 : ℝ) • (v0 + v1 + (4 : ℝ) • v2)) 0
          ((1 / 4 : ℝ) • ss) t (0, 0, 0) := by
  obtain ⟨ax, ay, az⟩ := v0
  obtain ⟨bx, xby, bz⟩ := v1
  obtain ⟨cx, cy, cz⟩ := v2
  obtain ⟨ssx, ssy, ssz⟩ := ss
  obtain ⟨tx, ty, tz⟩ := t
  obtain ⟨tux, tuy, tuz⟩ := tvel
  simp only [kernel_2_0p, kernel_0v_0p, Prod.smul_mk, Prod.mk_add_mk,
    smul_eq_mul, Prod.mk.injEq]
  refine ⟨by ring, by ring, by ring⟩

/-- Surfaces.h Surfaces::finalize_vels: every panel-center velocity
becomes freestream plus the accumulated value times 0.25/pi. -/
noncomputable def finalize_vels (fs : Vec3) (pu : List Vec3) : List Vec3 :=
  pu.map (fun v =>
    (fs.1 + v.1 * (0.25 / Real.pi),
     fs.2.1 + v.2.1 * (0.25 / Real.pi),
     fs.2.2 + v.2.2 * (0.25 / Real.pi)))

/-- Claim C6: finalize_vels is linear in the freestream argument --
finalizing with F1+F2 yields the same per-panel velocities as finalizing
with F1 and then adding F2 componentwise -- and each finalized velocity
equals freestream plus the accumulated velocity scaled once by
1/(4*pi). -/
theorem finalize_vels_linear_in_freestream (F1 F2 : Vec3) (pu : List Vec3) :
    finalize_vels (F1 + F2) pu = (finalize_vels F1 pu).map (fun v => v + F2) ∧
    finalize_vels F1 pu = pu.map (fun v => F1 + ((4 * Real.pi)⁻¹) • v) := by
  constructor
  · simp only [finalize_vels, List.map_map]
    congr 1
    funext v
    obtain ⟨c1, c2, c3⟩ := F1
    obtain ⟨d1, d2, d3⟩ := F2
    simp only [Function.comp_apply, Prod.mk_add_mk, Prod.fst_add,
      Prod.snd_add, Prod.mk.injEq]
    repeat' apply And.intro
    all_goals ring
  · simp only [finalize_vels]
    congr 1
    funext v
    obtain ⟨c1, c2, c3⟩ := F1
    obtain ⟨v1, v2, v3⟩ := v
    simp only [Prod.smul_mk, smul_eq_mul, Prod.mk_add_mk, Prod.fst_add,
      Prod.snd_add, Prod.mk.injEq]
    repeat' apply And.intro
    all_goals ring

/-- Element categories from Omega3D.h. -/
inductive elem_t where
  | active
  | reactive
  | inert
deriving DecidableEq

/-- Surfaces.h Surfaces::is_augmented: decides whether the BEM system is
augmented for this collection.  The live logic sets the flag from the
body pointer, the body name, the volume sign and the element category,
and a final forced assignment then overrides it to false. -/
def is_augmented (hasBody : Bool) (bodyName : String) (vol : ℚ)
    (e : elem_t) : Bool :=
  let augment0 := true
  let augment1 :=
    if hasBody then
      if bodyName = "ground" then
        if vol < 0 then false else augment0
      else augment0
    else false
  let augment2 := if e ≠ elem_t.reactive then false else augment1
  let augment3 := false
  augment3

/-- Claim C8: for every panel-collection state (any element category, any
body pointer, any volume), is_augmented returns false. -/
theorem is_augmented_always_false (hasBody : Bool) (bodyName : String)
    (vol : ℚ) (e : elem_t) :
    is_augmented hasBody bodyName vol e = false := rfl

/-- Stepper state of Simulation.h and Simulation.cpp.  The std::future is
modelled by the id of the step task it holds (none before the first
launch); launches counts the step tasks ever launched by async_step;
visible records which task's results the last successful poll surfaced
through stepfuture.get(). -/
structure AsyncSim where
  step_has_started : Bool
  step_is_finished : Bool
  stepfuture : Option ℕ
  launches : ℕ
  visible : Option ℕ
deriving DecidableEq

/-- Simulation state right after the Simulation constructor: no step
started, none finished, no task ever launched. -/
def simInit : AsyncSim :=
  { step_has_started := false
    step_is_finished := false
    stepfuture := none
    launches := 0
    visible := none }

/-- Simulation.cpp Simulation::async_step: unconditionally records that a
step has started and launches a new asynchronous step task, repointing
stepfuture at the new task. -/
def async_step (st : AsyncSim) : AsyncSim :=
  { st with
    step_has_started := true
    stepfuture := some st.launches
    launches := st.launches + 1 }

/-- Simulation.cpp Simulation::test_for_new_results: returns true at once
if no step has started; otherwise, if the future is ready (the ready
argument models is_future_ready(stepfuture)), consumes the future's
results, marks the step finished and not started, and returns true;
otherwise returns false. -/
def test_for_new_results (ready : Bool) (st : AsyncSim) : Bool × AsyncSim :=
  if not st.step_has_started then (true, st)
  else if ready then
    (true, { st with
             step_is_finished := true
             step_has_started := false
             visible := st.stepfuture })
  else (false, st)

/-- Claim C2 (counterexample): calling async_step twice before any poll
is not a no-op for the second call -- it launches a second step task --
and the eventual successful poll surfaces the second task's results, not
the first step's result set (which a single call followed by the same
poll would surface). -/
theorem async_step_double_call_cex :
    (async_step (async_step simInit)).launches ≠
      (async_step simInit).launches ∧
    ((test_for_new_results true (async_step (async_step simInit))).2).visible ≠
      ((test_for_new_results true (async_step simInit)).2).visible := by
  decide

/-- Claim C2 (amended): async_step has no stepping guard -- every call,
including one made while a step is already in flight, launches a new
step task and repoints the future at it, so the eventual successful poll
returns the latest step's results; while a step is in flight
test_for_new_results returns false, so rejection of a second step is the
caller's obligation, not async_step's. -/
theorem async_step_always_launches (st : AsyncSim) :
    (async_step st).launches = st.launches + 1 ∧
    (async_step st).stepfuture = some st.launches ∧
    (async_step st).step_has_started = true ∧
    (test_for_new_results false (async_step st)).1 = false ∧
    ((test_for_new_results true (async_step (async_step st))).2).visible =
      some (st.launches + 1) := by
  refine ⟨rfl, rfl, rfl, ?_, ?_⟩
  · simp [test_for_new_results, async_step]
  · simp [test_for_new_results, async_step]

/-- Payload of a successfully constructed panel collection: the parsed
node, index and value arrays together with the panel and node counts. -/
structure SurfData where
  x : List ℚ
  idx : List ℕ
  val : List ℚ
  nsurfs : ℕ
  nnodes : ℕ

/-- Surfaces.h Surfaces::Surfaces, construction-time shape validation.
Mirrors the constructor's assertion sequence: index stride, early exit
on zero panels, value stride, position stride, index bounds, then the
per-category value-size assertions; a failed assertion is modelled as a
construction error that yields no collection. -/
def surfacesConstruct (x : List ℚ) (idx : List ℕ) (val : List ℚ)
    (e : elem_t) : Except String SurfData :=
  if ¬ (idx.length % 3 = 0) then
    .error "Index array is not an even multiple of dimensions"
  else if idx.length / 3 = 0 then
    .ok ⟨[], [], [], 0, 0⟩
  else if ¬ (val.length % (idx.length / 3) = 0) then
    .error "Value array is not an even multiple of panel count"
  else if ¬ (x.length % 3 = 0) then
    .error "Position array is not an even multiple of dimensions"
  else if idx.any (fun i => decide (x.length / 3 ≤ i)) then
    .error "Some indicies are bad"
  else if e = elem_t.active ∧ ¬ (val.length = 2 * (idx.length / 3)) then
    .error "Value array is not an even multiple of panel count"
  else if e = elem_t.reactive ∧
      ¬ (0 < val.length / (idx.length / 3) ∧
         val.length / (idx.length / 3) < 4) then
    .error "Number of boundary conditions is not 1..3"
  else
    .ok ⟨x, idx, val, idx.length / 3, x.length / 3⟩

/-- Construction results that failed with a shape error. -/
def constructionFailed {α : Type} : Except String α → Bool
  | .error _ => true
  | .ok _ => false

/-- Claim C3: for every input to panel-collection construction with at
least one panel, construction fails with a shape error (producing no
collection) whenever the index array length is not a multiple of 3, the
value array length is not a multiple of the panel count, the position
array length is not a multiple of 3, or any panel index is at least the
number of supplied nodes. -/
theorem surfaces_construct_rejects_malformed
    (x : List ℚ) (idx : List ℕ) (val : List ℚ) (e : elem_t)
    (hne : idx ≠ [])
    (h : ¬ (idx.length % 3 = 0) ∨ ¬ (val.length % (idx.length / 3) = 0) ∨
         ¬ (x.length % 3 = 0) ∨ ∃ i ∈ idx, x.length / 3 ≤ i) :
    constructionFailed (surfacesConstruct x idx val e) = true := by
  simp only [surfacesConstruct]
  split_ifs with h1 h2 h3 h4 h5 h6 h7 <;> try rfl
  · have hlen : idx.length = 0 := by omega
    exact absurd (List.length_eq_zero.mp hlen) hne
  · simp only [List.any_eq_true, decide_eq_true_eq] at h5
    rcases h with h | h | h | ⟨i, hi, hle⟩
    · exact absurd h1 h
    · exact absurd h3 h
    · exact absurd h4 h
    · exact absurd ⟨i, hi, hle⟩ h5

/-- Claim C3 (witness): one triangle whose index array references node 3
when only nodes 0..2 were supplied is rejected as a shape error. -/
theorem surfaces_construct_rejects_malformed_witness :
    ([0, 1, 3] : List ℕ) ≠ [] ∧
    (∃ i ∈ ([0, 1, 3] : List ℕ),
      ([0, 0, 0, 1, 0, 0, 0, 1, 0] : List ℚ).length / 3 ≤ i) ∧
    constructionFailed
      (surfacesConstruct [0, 0, 0, 1, 0, 0, 0, 1, 0] [0, 1, 3] [0]
        elem_t.reactive) = true :=
  ⟨by decide, by decide,
   surfaces_construct_rejects_malformed _ _ _ _ (by decide)
     (Or.inr (Or.inr (Or.inr (by decide))))⟩

/-- RHS.h vels_to_rhs_panels: convert accumulated panel-center velocity
and boundary condition to the right-hand-side vector.  Per-panel basis
vectors (x1, x2, nrm), velocities (tu) and boundary-condition components
(tb, one entry per unknown) are supplied as functions of the panel
index.  The flat vector that the loops write at positions nunkn*i+j is
the concatenation of the per-panel blocks: first the projection selected
by the unknown count, then the componentwise subtraction of the
boundary-condition values. -/
def vels_to_rhs_panels (n : ℕ) (x1 x2 nrm tu : Fin n → Vec3)
    (tb : List (Fin n → ℝ)) : List ℝ :=
  let nunkn := tb.length
  let proj : Fin n → List ℝ := fun i =>
    if nunkn = 1 then [-(dot_product (tu i) (nrm i))]
    else if nunkn = 2 then
      [-(dot_product (tu i) (x1 i)), -(dot_product (tu i) (x2 i))]
    else if nunkn = 3 then
      [-(dot_product (tu i) (x1 i)), -(dot_product (tu i) (x2 i)),
       -(dot_product (tu i) (nrm i))]
    else List.replicate nunkn 0
  (List.ofFn (fun i => (proj i).zipWith (fun v g => v - g i) tb)).flatten

/-- Flattening equally sized blocks gives a vector of length blocks
times block size. -/
theorem length_flatten_ofFn_const {α : Type} (n k : ℕ) (f : Fin n → List α)
    (hf : ∀ i, (f i).length = k) :
    ((List.ofFn f).flatten).length = k * n := by
  rw [List.length_flatten, List.map_ofFn]
  have : (List.length ∘ f) = fun _ : Fin n => k := funext fun i => hf i
  rw [this, List.ofFn_const, List.sum_replicate, smul_eq_mul, Nat.mul_comm]

/-- Claim C4: for a reactive panel collection with n panels and k
boundary-condition components per panel, RHS assembly returns a vector
of length k*n whose block for panel i is: k=1: -v.n - b0; k=2:
(-v.t1 - b0, -v.t2 - b1); k=3: (-v.t1 - b0, -v.t2 - b1, -v.n - b2). -/
theorem vels_to_rhs_panels_projections (n : ℕ)
    (x1 x2 nrm tu : Fin n → Vec3) (b0 b1 b2 : Fin n → ℝ) :
    (vels_to_rhs_panels n x1 x2 nrm tu [b0] =
      (List.ofFn fun i => [-(dot_product (tu i) (nrm i)) - b0 i]).flatten ∧
     (vels_to_rhs_panels n x1 x2 nrm tu [b0]).length = 1 * n) ∧
    (vels_to_rhs_panels n x1 x2 nrm tu [b0, b1] =
      (List.ofFn fun i =>
        [-(dot_product (tu i) (x1 i)) - b0 i,
         -(dot_product (tu i) (x2 i)) - b1 i]).flatten ∧
     (vels_to_rhs_panels n x1 x2 nrm tu [b0, b1]).length = 2 * n) ∧
    (vels_to_rhs_panels n x1 x2 nrm tu [b0, b1, b2] =
      (List.ofFn fun i =>
        [-(dot_product (tu i) (x1 i)) - b0 i,
         -(dot_product (tu i) (x2 i)) - b1 i,
         -(dot_product (tu i) (nrm i)) - b2 i]).flatten ∧
     (vels_to_rhs_panels n x1 x2 nrm tu [b0, b1, b2]).length = 3 * n) := by
  have e1 : vels_to_rhs_panels n x1 x2 nrm tu [b0] =
      (List.ofFn fun i => [-(dot_product (tu i) (nrm i)) - b0 i]).flatten := by
    simp [vels_to_rhs_panels]
  have e2 : vels_to_rhs_panels n x1 x2 nrm tu [b0, b1] =
      (List.ofFn fun i =>
        [-(dot_product (tu i) (x1 i)) - b0 i,
         -(dot_product (tu i) (x2 i)) - b1 i]).flatten := by
    simp [vels_to_rhs_panels]
  have e3 : vels_to_rhs_panels n x1 x2 nrm tu [b0, b1, b2] =
      (List.ofFn fun i =>
        [-(dot_product (tu i) (x1 i)) - b0 i,
         -(dot_product (tu i) (x2 i)) - b1 i,
         -(dot_product (tu i) (nrm i)) - b2 i]).flatten := by
    simp [vels_to_rhs_panels]
  refine ⟨⟨e1, ?_⟩, ⟨e2, ?_⟩, ⟨e3, ?_⟩⟩
  · rw [e1]; exact length_flatten_ofFn_const n 1 _ (fun i => rfl)
  · rw [e2]; exact length_flatten_ofFn_const n 2 _ (fun i => rfl)
  · rw [e3]; exact length_flatten_ofFn_const n 3 _ (fun i => rfl)

/-- Simulation state fragment relevant to particle ingestion.  re, dt,
freestream and time are the primary parameters of Simulation.h; the two
diff fields model the Diffusion object's nominal separation and particle
overlap whose getters Simulation.cpp reads (Diffusion.h is not among the
analysed sources).  Modelled from the spec: a Points collection stores
the flat (x,y,z,sx,sy,sz,r) particle array it was constructed from, and
its add operation appends further such particles, so vort holds one flat
array per free-vorticity collection. -/
structure VSim where
  re : ℝ
  dt : ℝ
  fs : Vec3
  time : ℝ
  diff_nom_sep_scaled : ℝ
  diff_particle_overlap : ℝ
  vort : List (List ℝ)

/-- Simulation.cpp Simulation::get_hnu: sqrt(dt/re). -/
noncomputable def get_hnu (st : VSim) : ℝ := Real.sqrt (st.dt / st.re)

/-- Simulation.cpp Simulation::get_ips: nominal separation scaled by
hnu. -/
noncomputable def get_ips (st : VSim) : ℝ :=
  st.diff_nom_sep_scaled * get_hnu st

/-- Simulation.cpp Simulation::get_vdelta: particle overlap times the
inter-particle separation. -/
noncomputable def get_vdelta (st : VSim) : ℝ :=
  st.diff_particle_overlap * get_ips st

/-- Apply a function to the last element of a list, as the HACK in
Simulation::add_particles does to vort.back(). -/
def updateLast {α : Type} (f : α → α) : List α → List α
  | [] => []
  | [c] => [f c]
  | c :: rest => c :: updateLast f rest

/-- Simulation.cpp Simulation::add_particles: returns at once on an
empty input; otherwise overwrites the entry at every index 6, 13, 20,
... (the per-particle core radius) with the current vdelta and passes
the vector to a new Points collection when none exists, or appends it to
the last existing collection. -/
noncomputable def add_particles (st : VSim) (invec : List ℝ) : VSim :=
  if invec.length = 0 then st
  else
    let modified :=
      invec.mapIdx (fun i a => if i % 7 = 6 then get_vdelta st else a)
    if st.vort.length = 0 then { st with vort := [modified] }
    else { st with vort := updateLast (fun c => c ++ modified) st.vort }

/-- Appending to the last collection appends to the flattened whole. -/
theorem flatten_updateLast_append (d : List ℝ) :
    ∀ l : List (List ℝ), l ≠ [] →
      (updateLast (fun c => c ++ d) l).flatten = l.flatten ++ d := by
  intro l
  induction l with
  | nil => intro h; exact absurd rfl h
  | cons c rest ih =>
    intro _
    cases rest with
    | nil => simp [updateLast]
    | cons c2 r2 =>
      show (c :: updateLast (fun c => c ++ d) (c2 :: r2)).flatten = _
      rw [List.flatten_cons, ih (by simp)]
      simp [List.append_assoc]

/-- Claim C9: for every input whose length is a nonzero multiple of 7,
add_particles ingests the input with the core-radius slot (every 7th
component) of each particle overwritten by the simulation's current
vdelta -- the caller-supplied radius is never used -- and an empty input
leaves the simulation unchanged. -/
theorem add_particles_overrides_radii (st : VSim) (invec : List ℝ)
    (m : ℕ) (hm : 0 < m) (hlen : invec.length = 7 * m) :
    (add_particles st invec).vort.flatten =
      st.vort.flatten ++
        invec.mapIdx (fun j a => if j % 7 = 6 then get_vdelta st else a) ∧
    (∀ st2 : VSim, add_particles st2 [] = st2) := by
  have hne : ¬ (invec.length = 0) := by omega
  constructor
  · simp only [add_particles, if_neg hne]
    by_cases hv : st.vort.length = 0
    · have hv' : st.vort = [] := List.length_eq_zero.mp hv
      simp [hv']
    · rw [if_neg hv]
      exact flatten_updateLast_append _ _
        (fun hcon => hv (by rw [hcon]; rfl))
  · intro st2
    simp [add_particles]

/-- A concrete simulation state used to witness claim C9. -/
noncomputable def simW : VSim :=
  { re := 1
    dt := 1
    fs := (0, 0, 0)
    time := 0
    diff_nom_sep_scaled := 1
    diff_particle_overlap := 1
    vort := [] }

/-- Claim C9 (witness): the theorem instantiated at a one-particle
input. -/
theorem add_particles_overrides_radii_witness :
    0 < 1 ∧ ([1, 2, 3, 4, 5, 6, 7] : List ℝ).length = 7 * 1 ∧
    ((add_particles simW [1, 2, 3, 4, 5, 6, 7]).vort.flatten =
      simW.vort.flatten ++
        ([1, 2, 3, 4, 5, 6, 7] : List ℝ).mapIdx
          (fun j a => if j % 7 = 6 then get_vdelta simW else a) ∧
     (∀ st2 : VSim, add_particles st2 [] = st2)) :=
  ⟨Nat.one_pos, by norm_num,
   add_particles_overrides_radii simW [1, 2, 3, 4, 5, 6, 7] 1
     Nat.one_pos (by norm_num)⟩

/-- Panel-collection state fragment touched by
Surfaces::add_rot_strengths: the panel count, the two vortex-sheet
strength arrays vs, the absolute panel strengths ps, the
boundary-condition table bc, the optional source-strength array ss, the
body volume, the attached body's name (none models a null Body pointer)
and the body's rotation rate. -/
structure RotSurf where
  np : ℕ
  vs : List ℚ × List ℚ
  ps : List ℚ × List ℚ × List ℚ
  bc : List (List ℚ)
  ss : Option (List ℚ)
  vol : ℚ
  bodyName : Option String
  rotvel : ℚ × ℚ × ℚ
deriving DecidableEq

/-- Machine epsilon of a double, the threshold used by
add_rot_strengths. -/
def epsD : ℚ := 1 / 2 ^ 52

/-- Resize a strength array to n entries, value-initializing (zeroing)
any newly created entries, as std::vector::resize does. -/
def resizeZero (v : List ℚ) (n : ℕ) : List ℚ :=
  v.take n ++ List.replicate (n - v.length) 0

/-- Surfaces.h Surfaces::add_rot_strengths: returns unchanged when there
is no body, the body is named ground, or the summed absolute rotation
rate exceeds machine epsilon; then asserts that the volume is positive
(a fatal precondition failure, modelled as an error exactly like the
constructor's asserts), creates or resizes the optional source-strength
array ss, and asserts that the absolute-strength array matches the panel
count.  The per-panel loop that follows in the source computes local
velocities with factor 0.0 and its strength writes are commented out, so
it mutates nothing further. -/
def add_rot_strengths (st : RotSurf) (constfac rotfactor : ℚ) :
    Except String RotSurf :=
  match st.bodyName with
  | none => .ok st
  | some name =>
    if name = "ground" then .ok st
    else if |st.rotvel.1| + |st.rotvel.2.1| + |st.rotvel.2.2| > epsD then
      .ok st
    else if ¬ (0 < st.vol) then
      .error "Have not calculated transformed center, or volume is negative"
    else
      let newss : List ℚ := match st.ss with
        | some v => resizeZero v st.np
        | none => List.replicate st.np (0 : ℚ)
      if ¬ (st.ps.1.length = st.np) then
        .error "Strength array is not the same as panel count"
      else .ok { st with ss := some newss }

/-- Claim C10: whenever add_rot_strengths returns a collection, the
vortex-sheet strengths, the absolute panel strengths and the
boundary-condition table are unchanged, and the only field that may
differ is the optional source-strength array, which changes only when a
non-ground body is attached and the summed absolute rotation rate does
not exceed machine epsilon; in that case -- provided the fatal
volume-positivity and strength-array-size assertions hold, without which
the call aborts instead of producing a collection -- ss is created
zero-filled at the panel count or resized to the panel count. -/
theorem add_rot_strengths_frame (st : RotSurf) (c r : ℚ) :
    (∀ st', add_rot_strengths st c r = .ok st' →
      st'.vs = st.vs ∧ st'.ps = st.ps ∧ st'.bc = st.bc ∧
      (st'.ss ≠ st.ss →
        st.bodyName ≠ none ∧ st.bodyName ≠ some "ground" ∧
        |st.rotvel.1| + |st.rotvel.2.1| + |st.rotvel.2.2| ≤ epsD)) ∧
    (∀ name, st.bodyName = some name → name ≠ "ground" →
      |st.rotvel.1| + |st.rotvel.2.1| + |st.rotvel.2.2| ≤ epsD →
      0 < st.vol → st.ps.1.length = st.np →
      ∃ l, add_rot_strengths st c r = .ok { st with ss := some l } ∧
        l.length = st.np ∧ (st.ss = none → l = List.replicate st.np 0)) := by
  constructor
  · intro st' hok
    rcases hB : st.bodyName with _ | name
    · simp only [add_rot_strengths, hB, Except.ok.injEq] at hok
      subst hok
      exact ⟨rfl, rfl, rfl, fun hss => absurd rfl hss⟩
    · by_cases hg : name = "ground"
      · subst hg
        simp [add_rot_strengths, hB] at hok
        subst hok
        exact ⟨rfl, rfl, rfl, fun hss => absurd rfl hss⟩
      · by_cases hrot :
          |st.rotvel.1| + |st.rotvel.2.1| + |st.rotvel.2.2| > epsD
        · simp [add_rot_strengths, hB, hg, hrot] at hok
          subst hok
          exact ⟨rfl, rfl, rfl, fun hss => absurd rfl hss⟩
        · by_cases hvol : 0 < st.vol
          · by_cases hps : st.ps.1.length = st.np
            · simp [add_rot_strengths, hB, hg, hrot, hvol, hps] at hok
              subst hok
              refine ⟨rfl, rfl, rfl, fun _ => ⟨?_, ?_, not_lt.mp hrot⟩⟩
              · simp
              · intro hcon
                exact hg (Option.some.inj hcon)
            · simp [add_rot_strengths, hB, hg, hrot, hvol, hps] at hok
          · simp [add_rot_strengths, hB, hg, hrot, hvol] at hok
  · intro name hsome hng hle hvol hps
    have hrot : ¬ (|st.rotvel.1| + |st.rotvel.2.1| + |st.rotvel.2.2| >
        epsD) := not_lt.mpr hle
    rcases hss : st.ss with _ | v
    · refine ⟨List.replicate st.np 0, ?_, by simp, fun _ => rfl⟩
      simp [add_rot_strengths, hsome, hng, hrot, hvol, hps, hss]
    · refine ⟨resizeZero v st.np, ?_, ?_, ?_⟩
      · simp [add_rot_strengths, hsome, hng, hrot, hvol, hps, hss]
      · simp only [resizeZero, List.length_append, List.length_take,
          List.length_replicate]
        omega
      · intro hcon
        exact absurd hcon (by simp)

/-- A concrete panel-collection state used to witness claim C10. -/
def rotSurfW : RotSurf :=
  { np := 2
    vs := ([1], [2])
    ps := ([3, 3], [4, 4], [5, 5])
    bc := [[6]]
    ss := none
    vol := 1
    bodyName := some "wing"
    rotvel := (0, 0, 0) }

/-- Claim C10 (witness): the theorem instantiated at a two-panel
collection with positive volume and a panel-count-sized strength array,
attached to a non-rotating, non-ground body without an existing
source-strength array. -/
theorem add_rot_strengths_frame_witness :
    rotSurfW.bodyName = some "wing" ∧ "wing" ≠ "ground" ∧
    |rotSurfW.rotvel.1| + |rotSurfW.rotvel.2.1| + |rotSurfW.rotvel.2.2| ≤
      epsD ∧
    0 < rotSurfW.vol ∧ rotSurfW.ps.1.length = rotSurfW.np ∧
    ∃ l, add_rot_strengths rotSurfW 1 2 =
        .ok { rotSurfW with ss := some l } ∧
      l.length = rotSurfW.np ∧
      (rotSurfW.ss = none → l = List.replicate rotSurfW.np 0) :=
  ⟨rfl, by decide, by norm_num [rotSurfW, epsD], by norm_num [rotSurfW],
   rfl,
   (add_rot_strengths_frame rotSurfW 1 2).2 "wing" rfl (by decide)
     (by norm_num [rotSurfW, epsD]) (by norm_num [rotSurfW]) rfl⟩

/-- Surfaces.h geometric state fragment: current node positions, the
untransformed node positions kept for body-bound collections, the index
table (3 entries per panel), the panel count np, and the per-panel
records (tangent-1, tangent-2, normal, area) held in the basis and area
arrays. -/
structure SurfGeom where
  nodes : List Vec3
  unodes : List Vec3
  idx : List ℕ
  np : ℕ
  geom : List (Vec3 × Vec3 × Vec3 × ℝ)

/-- Surfaces.h Surfaces::compute_bases, per-panel body: tangent-1 is the
normalized edge from node 0 to node 1, tangent-2 is the edge to node 2
minus its tangent-1 component, normalized, the normal is their cross
product, and the area is half base times height.  The length helper of
MathHelper.h (not among the analysed sources) is the Euclidean norm. -/
noncomputable def compute_one_basis (nodes : List Vec3) (idx : List ℕ)
    (i : ℕ) : Vec3 × Vec3 × Vec3 × ℝ :=
  let p0 := nodes.getD (idx.getD (3 * i) 0) (0, 0, 0)
  let p1 := nodes.getD (idx.getD (3 * i + 1) 0) (0, 0, 0)
  let p2 := nodes.getD (idx.getD (3 * i + 2) 0) (0, 0, 0)
  let e1 := p1 - p0
  let base := Real.sqrt (dot_product e1 e1)
  let x1 := (1 / base) • e1
  let e2 := p2 - p0
  let dp := dot_product e2 x1
  let x2p := e2 - dp • x1
  let height := Real.sqrt (dot_product x2p x2p)
  let x2 := (1 / height) • x2p
  let nrm := cross_product x1 x2
  (x1, x2, nrm, 0.5 * base * height)

/-- Surfaces.h Surfaces::compute_bases: resizes the basis and area
arrays to nnew panels and recomputes records only for panel indices from
the previous array size (the watermark norig = b[0][0].size()) up to
nnew, reading the current node positions. -/
noncomputable def compute_bases (st : SurfGeom) (nnew : ℕ) : SurfGeom :=
  let norig := st.geom.length
  let freshPart := (List.range (nnew - norig)).map
    (fun k => compute_one_basis st.nodes st.idx (norig + k))
  { st with geom := st.geom.take nnew ++ freshPart }

/-- Surfaces.h Surfaces::transform for a body-bound collection.
Modelled from the spec: the base-class ElementBase::transform (its
source is not among the analysed files) repositions the node coordinates
by the body's rigid-body affine transform T applied to the
untransformed coordinates; Surfaces::transform then calls
compute_bases(np). -/
noncomputable def surfaces_transform (T : Vec3 → Vec3) (st : SurfGeom) :
    SurfGeom :=
  compute_bases { st with nodes := st.unodes.map T } st.np

/-- The invariant claim C7 asserts after every transform: each panel's
stored basis and area equal the two-edge Gram-Schmidt construction
evaluated on the current (post-transform) node positions. -/
def basesFresh (st : SurfGeom) : Prop :=
  ∀ i < st.np,
    st.geom.getD i ((0, 0, 0), (0, 0, 0), (0, 0, 0), 0) =
      compute_one_basis st.nodes st.idx i

/-- One body-bound triangle with nodes at the origin, (1,0,0) and
(0,1,0), with its basis computed at construction time. -/
noncomputable def surfW0 : SurfGeom :=
  compute_bases
    { nodes := [(0, 0, 0), (1, 0, 0), (0, 1, 0)]
      unodes := [(0, 0, 0), (1, 0, 0), (0, 1, 0)]
      idx := [0, 1, 2]
      np := 1
      geom := [] } 1

/-- Rigid rotation by a quarter turn about the x-axis. -/
def rotX (v : Vec3) : Vec3 := (v.1, v.2.2, -v.2.1)

/-- Claim C7 is violated by the code: after transform rotates the
triangle about the x-axis, the stored basis is not the Gram-Schmidt
construction on the post-transform node positions.  The compute_bases
call inside transform recomputes only panels past the watermark
b[0][0].size(), which already equals np, so it is a no-op and tangent-2
stays (0,1,0) although the transformed geometry requires (0,0,-1). -/
theorem transform_leaves_bases_stale :
    ¬ basesFresh (surfaces_transform rotX surfW0) := by
  intro h
  have h0 := h 0 Nat.zero_lt_one
  have hz := congrArg (fun q : Vec3 × Vec3 × Vec3 × ℝ => q.2.1.2.2) h0
  simp only [surfaces_transform, compute_bases, surfW0, compute_one_basis,
    rotX, dot_product, cross_product, List.map, List.take, List.range,
    List.range.loop, List.getD, List.getElem?_cons_zero,
    List.getElem?_cons_succ, Prod.mk_sub_mk, Prod.smul_mk, smul_eq_mul,
    Prod.mk_add_mk] at hz
  norm_num [Real.sqrt_one] at hz

end Omega3D
